import Mathlib

/-!
Verification development for `ssearch.py` (udns_ssearch): a shallow
embedding of the scripts data model and operations, followed by theorems
settling the specification claims.

The script enumerates DNS pool records across the sub-accounts of a
reseller account.  The HTTP transport is modelled by explicit server
models (one per endpoint); responses carry the status code, the body text
(for the substring checks the script performs) and the parsed JSON fields
the script reads.  Python exceptions are modelled with `Except`, process
exit with an `Outcome` type, and Python truthiness explicitly.
-/

/-- Python exceptions that the script can raise or propagate:
`requests.HTTPError` from `raise_for_status` (carrying the status code),
`TypeError` from calling a non-callable value, and `NameError` from an
unresolved name. -/
inductive PyError where
  | httpError (status : Nat)
  | typeError (msg : String)
  | nameError (missing : String)
deriving DecidableEq, Repr

/-- A Python value as relevant to `make_request`s `refresh_token`
parameter: in every call path of the script it is either `None` or the
refresh-token string obtained from `get_primary_token`. -/
inductive PyVal where
  | none
  | str (s : String)
deriving DecidableEq, Repr

/-- Python truthiness of a `PyVal`: `None` is falsy, a string is truthy
iff non-empty. -/
def PyVal.truthy : PyVal → Bool
  | PyVal.none => false
  | PyVal.str s => !(s == "")

/-- Python substring containment `needle in hay` on strings. -/
def pyInStr (needle hay : String) : Bool :=
  hay.toList.tails.any (fun t => needle.toList.isPrefixOf t)

/-- An HTTP response as seen by the script: status code, body text (used
by the substring checks), and the parsed JSON payload `body` (typed per
endpoint). -/
structure Resp (α : Type) where
  status : Nat
  text : String
  body : α
deriving DecidableEq, Repr

/-- The `response.raise_for_status()` method of the requests library:
raises `HTTPError` for a 4xx/5xx status, otherwise returns the response
unchanged. -/
def raise_for_status {α : Type} (r : Resp α) : Except PyError (Resp α) :=
  if 400 ≤ r.status then Except.error (PyError.httpError r.status) else Except.ok r

/-- Evaluation of the call `refresh_token(refresh_token)` inside
`make_request` (ssearch.py line 41).  Per Python scoping, the bare name
`refresh_token` there resolves to the function PARAMETER of that name
(which shadows the module-level `refresh_token` function defined at lines
25-33); the parameters value is `None` or the refresh-token string, and
calling either raises `TypeError`. -/
def callRefreshParam : PyVal → Except PyError PyVal
  | PyVal.none => Except.error (PyError.typeError "NoneType object is not callable")
  | PyVal.str _ => Except.error (PyError.typeError "str object is not callable")

/-- Embedding of `make_request(method, url, token, refresh_token)`
(ssearch.py lines 35-45).  `first` is the servers response to the
request; `retry` is the response the (intended) retry after a token
refresh would receive.  Returns the result together with the number of
HTTP requests actually sent.  A 403 response is returned to the caller
unchecked; on a 401 with a truthy `refresh_token` the script evaluates
`refresh_token(refresh_token)` (see `callRefreshParam`); otherwise
`raise_for_status` decides. -/
def make_request {α : Type} (first retry : Resp α) (refresh_tok : PyVal) :
    Except PyError (Resp α) × Nat :=
  if first.status = 403 then (Except.ok first, 1)
  else if first.status = 401 ∧ PyVal.truthy refresh_tok = true then
    match callRefreshParam refresh_tok with
    | Except.error e => (Except.error e, 1)
    | Except.ok _ => (raise_for_status retry, 2)
  else (raise_for_status first, 1)

/-- C3: for a first response of 401 with a refresh token available
(a non-empty string), `make_request` does NOT perform a token refresh and
retry: the name `refresh_token` inside the function is the string-valued
parameter shadowing the module-level refresh function, so the call
`refresh_token(refresh_token)` raises `TypeError` after a single request;
only the no-refresh-token half of the claim (the 401 propagates as
`HTTPError`) holds. -/
theorem make_request_401_no_refresh_retry :
    make_request (α := Unit) ⟨401, "Unauthorized", ()⟩ ⟨200, "", ()⟩ (PyVal.str "sometoken")
      = (Except.error (PyError.typeError "str object is not callable"), 1) ∧
    make_request (α := Unit) ⟨401, "Unauthorized", ()⟩ ⟨200, "", ()⟩ PyVal.none
      = (Except.error (PyError.httpError 401), 1) := by
  constructor <;> rfl

/-- A sub-account record as returned by GET /subaccounts: the script reads
`account.get("accountName")`. -/
structure Account where
  accountName : String
deriving DecidableEq, Repr

/-- A zone record as returned by GET /v2/zones: the script reads
`zone["properties"]["name"]`, modelled as the single field `name`. -/
structure Zone where
  name : String
deriving DecidableEq, Repr

/-- A pool rrset as returned by the rrsets listing: the script reads
`pool["ownerName"]` and `pool["profile"]["@context"]` (the latter modelled
as `profileContext`). -/
structure Pool where
  ownerName : String
  profileContext : String
deriving DecidableEq, Repr

/-- A row of the report, i.e. one of the dicts appended to `data` in
`main` with keys Sub Account Name / Zone Name / Pool Name / Pool Type. -/
structure ReportRow where
  subAccountName : String
  zoneName : String
  poolName : String
  poolType : String
deriving DecidableEq, Repr

/-- The all-empty dict that `main` places at the head of `data` before the
aggregation loop (ssearch.py line 109). -/
def placeholderRow : ReportRow := ⟨"", "", "", ""⟩

/-- Server model for GET /subaccounts.  When `resp403` is `some t`, every
request to the endpoint answers status 403 with body text `t` (the
supplied credential lacks reseller permission); otherwise the endpoint
serves slices of the full list `accounts`: the page at `offset` is
`accounts[offset : offset+1000]` and `resultInfo.returnedCount` is that
pages length.  Polymorphic in the account record type (Python is
untyped; `main` uses richer records, see `AccountData`). -/
structure SubaccountsServer (α : Type) where
  resp403 : Option String
  accounts : List α

/-- The response GET /subaccounts?limit=1000&offset=... produces under the
`SubaccountsServer` model. -/
def subaccountsResponse {α : Type} (srv : SubaccountsServer α) (offset : Nat) :
    Resp (List α × Nat) :=
  match srv.resp403 with
  | some t => { status := 403, text := t, body := ([], 0) }
  | none =>
    let page := (srv.accounts.drop offset).take 1000
    { status := 200, text := "", body := (page, page.length) }

/-- The message printed by `get_subaccounts` on a 403 whose body mentions
missing permissions (ssearch.py line 52). -/
def permissionErrorMsg : String :=
  "Error: You do not have permissions to access sub-accounts. Ensure you're using a reseller account."

/-- Result of running a piece of the script: a normal value, a process
exit via `exit(code)` after printing `msg`, or a propagating Python
exception. -/
inductive Outcome (α : Type) where
  | ok (val : α)
  | exited (code : Nat) (msg : String)
  | raised (e : PyError)
deriving DecidableEq, Repr

/-- The `while True` loop of `get_subaccounts` (ssearch.py lines 47-60),
with explicit fuel (the fuel `get_subaccounts` supplies always suffices,
see `get_subaccounts_go_ok`; the out-of-fuel branch is unreachable).
Each iteration calls `make_request`; a 403 whose text mentions missing
permissions prints and exits with code 1; otherwise `raise_for_status`,
extend the accumulator with `data.get("accounts", [])`, stop when
`data["resultInfo"]["returnedCount"] < 1000`, else advance the offset by
1000.  Returns the outcome together with the list of offsets requested,
in order. -/
def get_subaccounts_go {α : Type} (srv : SubaccountsServer α) (refresh_tok : PyVal) :
    Nat → Nat → Outcome (List α) × List Nat
  | 0, _ => (Outcome.ok [], [])
  | fuel+1, offset =>
    match make_request (subaccountsResponse srv offset) (subaccountsResponse srv offset)
        refresh_tok with
    | (Except.error e, _) => (Outcome.raised e, [offset])
    | (Except.ok response, _) =>
      if response.status = 403 ∧ pyInStr "do not have permissions" response.text = true then
        (Outcome.exited 1 permissionErrorMsg, [offset])
      else
        match raise_for_status response with
        | Except.error e => (Outcome.raised e, [offset])
        | Except.ok response =>
          if response.body.2 < 1000 then (Outcome.ok response.body.1, [offset])
          else
            match get_subaccounts_go srv refresh_tok fuel (offset + 1000) with
            | (Outcome.ok rest, reqs) => (Outcome.ok (response.body.1 ++ rest), offset :: reqs)
            | (out, reqs) => (out, offset :: reqs)

/-- Embedding of `get_subaccounts(token, refresh_token, offset=0)`
(ssearch.py lines 47-60) over the `SubaccountsServer` model. -/
def get_subaccounts {α : Type} (srv : SubaccountsServer α) (refresh_tok : PyVal) :
    Outcome (List α) × List Nat :=
  get_subaccounts_go srv refresh_tok (srv.accounts.length + 1) 0

/-- Server model for the rrsets (pools) listing of one zone.
`notFound offset` tells whether the request at that offset answers 404
(for a zone with no pool records the server answers 404 on every request,
i.e. `notFound` is constantly true); otherwise the endpoint serves slices
of `rrSets` with `resultInfo.returnedCount` the pages length. -/
structure PoolsServer where
  notFound : Nat → Bool
  rrSets : List Pool

/-- The `while True` loop of `get_pools` (ssearch.py lines 91-104), with
explicit fuel (the fuel `get_pools` supplies always suffices; the
out-of-fuel branch is unreachable).  A 404 breaks out of the loop,
returning what was gathered so far; otherwise accumulate the page, stop
when `returnedCount < 1000`, else advance the offset by 1000.  Returns
the gathered rrsets together with the list of offsets requested. -/
def get_pools_go (srv : PoolsServer) : Nat → Nat → List Pool × List Nat
  | 0, _ => ([], [])
  | fuel+1, offset =>
    if srv.notFound offset = true then ([], [offset])
    else
      let page := (srv.rrSets.drop offset).take 1000
      if page.length < 1000 then (page, [offset])
      else
        let r := get_pools_go srv fuel (offset + 1000)
        (page ++ r.1, offset :: r.2)

/-- Embedding of `get_pools(zone_name, token, offset=0)` (ssearch.py
lines 91-104) over the `PoolsServer` model. -/
def get_pools (srv : PoolsServer) : List Pool × List Nat :=
  get_pools_go srv (srv.rrSets.length + 1) 0

/-- A response of GET /v2/zones?limit=1000&cursor=...: the `zones` list and
`cursorInfo.get("next")`. -/
structure ZonesPage where
  zones : List Zone
  next : Option String
deriving DecidableEq, Repr

/-- Embedding of the `while True` loop of `get_zones(token, cursor="")`
(ssearch.py lines 78-89) over a server model `srv` mapping each cursor
parameter value to its response.  Fuel makes the loop total (`none` means
the fuel ran out; for a well-formed server the fuel used in the theorems
suffices).  Each iteration extends the accumulator with the pages zones,
sets `cursor = data["cursorInfo"].get("next")` and breaks when that value
is falsy (absent, or the empty string). -/
def get_zones_cursor (srv : String → ZonesPage) : Nat → String → Option (List Zone)
  | 0, _ => none
  | fuel+1, cursor =>
    let data := srv cursor
    match data.next with
    | none => some data.zones
    | some c =>
      if c = "" then some data.zones
      else (get_zones_cursor srv fuel c).map (fun rest => data.zones ++ rest)

/-- Well-formedness of a zones server, relating it to the chunk sequence
it serves: `Serves srv c chunks` says that starting from cursor parameter
`c` the server hands out the chunks of `chunks` in order, each non-final
response carrying a truthy `next` cursor and the final one carrying
none. -/
inductive Serves (srv : String → ZonesPage) : String → List (List Zone) → Prop where
  | last (c : String) (zs : List Zone) (h : srv c = ⟨zs, none⟩) : Serves srv c [zs]
  | cons (c : String) (zs : List Zone) (c' : String) (rest : List (List Zone))
      (h : srv c = ⟨zs, some c'⟩) (hc : c' ≠ "")
      (htail : Serves srv c' rest) : Serves srv c (zs :: rest)

/-- Chunk-level form of `get_zones` (ssearch.py lines 78-89), used by the
embedding of `main`: the server model is the chunk sequence itself, and
the loop accumulates each chunk and follows to the next until the chunks
are exhausted (i.e. until the server omits the next cursor).  The theorem
for C2 relates this to the cursor-faithful `get_zones_cursor`. -/
def get_zones : List (List Zone) → List Zone
  | [] => []
  | page :: rest => page ++ get_zones rest

/-- Modelled from the spec: a single unpaginated fetch of the same total
set returns every zone the server serves, in order. -/
def unpaginated_zones (chunks : List (List Zone)) : List Zone :=
  chunks.flatten

/-- The response to POST /subaccounts/{name}/token for one account:
either success with the access token, or an HTTP error status with the
response body text. -/
inductive TokenResp where
  | ok (accessToken : String)
  | httpError (status : Nat) (text : String)
deriving DecidableEq, Repr

/-- Embedding of `get_subaccount_token(account_name, primary_token)`
(ssearch.py lines 62-76).  On `requests.HTTPError`, if the response text
contains "is suspended" the function prints a skip message and returns
`None` (modelled `Except.ok none`); any other HTTP error re-raises. -/
def get_subaccount_token (resp : TokenResp) : Except PyError (Option String) :=
  match resp with
  | TokenResp.ok tok => Except.ok (some tok)
  | TokenResp.httpError st text =>
    if pyInStr "is suspended" text = true then Except.ok none
    else Except.error (PyError.httpError st)

/-- Python truthiness of `subaccount_token` in `main`s check
`if not subaccount_token: continue`: `None` and the empty string are
falsy. -/
def pyTruthyOpt : Option String → Bool
  | Option.none => false
  | Option.some s => !(s == "")

/-- The world of one sub-account as seen through the API by `main`: its
listing record (`accountName`), the response its impersonation call
produces, the chunk sequence its zones listing serves, and the pools
server of each of its zones, keyed by zone name. -/
structure AccountData where
  accountName : String
  tokenResp : TokenResp
  zoneChunks : List (List Zone)
  poolsOf : String → PoolsServer

/-- The inner zone loop of `main` (ssearch.py lines 117-123): for each
zone, read `zone["properties"]["name"]`, fetch its pools and append one
row per pool combining the account name, zone name, pool owner name and
pool profile context. -/
def processZones (account_name : String) (poolsOf : String → PoolsServer) :
    List Zone → List ReportRow
  | [] => []
  | zone :: rest =>
    let zone_name := zone.name
    let pools := (get_pools (poolsOf zone_name)).1
    (pools.map (fun pool => ⟨account_name, zone_name, pool.ownerName, pool.profileContext⟩))
      ++ processZones account_name poolsOf rest

/-- The outer account loop of `main` (ssearch.py lines 111-123): for each
account, impersonate (an exception aborts the run); `continue` when the
returned token is falsy (suspended account); otherwise fetch the zones
and append this accounts rows before processing the remaining
accounts. -/
def processAccounts : List AccountData → Except PyError (List ReportRow)
  | [] => Except.ok []
  | acct :: rest =>
    match get_subaccount_token acct.tokenResp with
    | Except.error e => Except.error e
    | Except.ok subaccount_token =>
      if pyTruthyOpt subaccount_token = false then processAccounts rest
      else
        let zones := get_zones acct.zoneChunks
        let rows := processZones acct.accountName acct.poolsOf zones
        match processAccounts rest with
        | Except.error e => Except.error e
        | Except.ok restRows => Except.ok (rows ++ restRows)

/-- The row-building part of `main` (ssearch.py lines 106-123), after a
successful `get_primary_token`: list the sub-accounts (a permission
failure exits the process), seed `data` with the all-empty placeholder
dict and run the aggregation loop; an exception anywhere aborts the run
with no output. -/
def main_rows (srv : SubaccountsServer AccountData) (refresh_tok : PyVal) :
    Outcome (List ReportRow) :=
  match (get_subaccounts srv refresh_tok).1 with
  | Outcome.exited code msg => Outcome.exited code msg
  | Outcome.raised e => Outcome.raised e
  | Outcome.ok subaccounts =>
    match processAccounts subaccounts with
    | Except.error e => Outcome.raised e
    | Except.ok rows => Outcome.ok (placeholderRow :: rows)

/-- A JSON value, for modelling `json.dumps(data, indent=4)` (the
indentation is a formatting detail and is not modelled; the array and
object structure and order are). -/
inductive JsonVal where
  | str (s : String)
  | arr (elems : List JsonVal)
  | obj (members : List (String × JsonVal))

/-- Serialization of one row dict to a JSON object, key order as in the
dicts built by `main`. -/
def rowToJson (r : ReportRow) : JsonVal :=
  JsonVal.obj [("Sub Account Name", JsonVal.str r.subAccountName),
    ("Zone Name", JsonVal.str r.zoneName),
    ("Pool Name", JsonVal.str r.poolName),
    ("Pool Type", JsonVal.str r.poolType)]

/-- Embedding of `json.dumps(data, indent=4)` / `json.dump(data, ...)` on
the row list (ssearch.py lines 128 and 136): the WHOLE list, placeholder
included, becomes a JSON array of objects. -/
def json_dump (data : List ReportRow) : JsonVal :=
  JsonVal.arr (data.map rowToJson)

/-- The field names of the report: `data[0].keys()` in `main`, i.e. the
keys of the placeholder dict, in insertion order. -/
def fieldnames : List String :=
  ["Sub Account Name", "Zone Name", "Pool Name", "Pool Type"]

/-- The cell values of one row, in `fieldnames` order, as written by
`csv.DictWriter.writerow`. -/
def rowFields (r : ReportRow) : List String :=
  [r.subAccountName, r.zoneName, r.poolName, r.poolType]

/-- Embedding of the CSV writing in `main` (ssearch.py lines 130-133 and
137-141): `writeheader()` emits the field names, then `writerow` is
called for each element of `data[1:]` (slicing off the leading
placeholder).  Output is modelled as the list of lines, each line the
list of its cells. -/
def csv_write (data : List ReportRow) : List (List String) :=
  fieldnames :: (data.drop 1).map rowFields

/-- The top-level names bound by the import statements of ssearch.py
(lines 1-7): `import requests`, `import csv`, `import argparse`,
`import urllib.parse` (binding `urllib`), `import json`, `import os`,
`from tqdm import tqdm`.  Note `sys` is absent. -/
def importedNames : List String :=
  ["requests", "csv", "argparse", "urllib", "json", "os", "tqdm"]

/-- Python name resolution at module level for the names `main` uses:
a name that no import (or def) binds raises `NameError`. -/
def resolveName (n : String) : Except PyError Unit :=
  if importedNames.contains n then Except.ok () else Except.error (PyError.nameError n)

/-- Embedding of the `format == "csv"`, no-output-file branch of `main`
(ssearch.py lines 138-141): evaluating
`csv.DictWriter(sys.stdout, fieldnames=data[0].keys())` resolves `csv`
and then `sys`; only once the writer exists are the header and the rows
written.  The first component is the result, the second the lines
actually written to standard output before any failure. -/
def render_csv_stdout (data : List ReportRow) :
    Except PyError (List (List String)) × List (List String) :=
  match resolveName "csv" with
  | Except.error e => (Except.error e, [])
  | Except.ok _ =>
    match resolveName "sys" with
    | Except.error e => (Except.error e, [])
    | Except.ok _ => (Except.ok (csv_write data), csv_write data)

/-- The offsets an exhaustive offset-style fetch over `n` items requests:
0, 1000, ..., 1000 * (n / 1000); the page at the last offset is the first
one shorter than the page size, and nothing is requested after it. -/
def pageOffsets (n : Nat) : List Nat :=
  (List.range (n / 1000 + 1)).map (fun i => 1000 * i)

/-- Arithmetic helper: peeling the first offset off the requested-offset
sequence. -/
theorem mapOffsets_succ (off k : Nat) :
    (List.range (k+1)).map (fun i => off + 1000 * i)
      = off :: (List.range k).map (fun i => off + 1000 + 1000 * i) := by
  rw [List.range_succ_eq_map, List.map_cons, List.map_map]
  refine congrArg₂ List.cons ?_ ?_
  · simp
  · exact List.map_congr_left (fun i _ => by simp only [Function.comp_apply]; omega)

/-- Behaviour of the `get_pools` loop over a zone whose rrsets listing
never answers 404: starting at any offset and given enough fuel, it
returns exactly the items from that offset on, having requested the
offsets `offset, offset + 1000, ...` up to and including the first short
page. -/
theorem get_pools_go_ok (srv : PoolsServer) (hnf : ∀ o, srv.notFound o = false) :
    ∀ (fuel offset : Nat), srv.rrSets.length - offset < 1000 * fuel →
      get_pools_go srv fuel offset =
        (srv.rrSets.drop offset,
         (List.range ((srv.rrSets.length - offset) / 1000 + 1)).map
           (fun i => offset + 1000 * i)) := by
  intro fuel
  induction fuel with
  | zero => intro offset h; omega
  | succ fuel ih =>
    intro offset h
    simp only [get_pools_go, hnf offset]
    split
    · next hnf2 => exact absurd hnf2 (by simp)
    · next =>
      split
      · next hshort =>
        simp only [List.length_take, List.length_drop] at hshort
        have hs : srv.rrSets.length - offset < 1000 := by
          rcases min_lt_iff.mp hshort with h1 | h2
          · omega
          · exact h2
        simp only [Prod.mk.injEq]
        constructor
        · exact List.take_of_length_le (by simp [List.length_drop]; omega)
        · rw [Nat.div_eq_of_lt hs]
          norm_num [List.range_succ]
      · next hfull =>
        simp only [List.length_take, List.length_drop] at hfull
        have hf : 1000 ≤ srv.rrSets.length - offset := (le_min_iff.mp (not_lt.mp hfull)).2
        have hih : srv.rrSets.length - (offset + 1000) < 1000 * fuel := by omega
        rw [ih (offset + 1000) hih]
        dsimp only
        simp only [Prod.mk.injEq]
        constructor
        · rw [← List.drop_drop]
          exact List.take_append_drop 1000 (srv.rrSets.drop offset)
        · conv_rhs => rw [Nat.div_eq_sub_div (by norm_num) hf, Nat.sub_sub, mapOffsets_succ]
/-- Behaviour of the `get_subaccounts` loop when the credential has
reseller permission (no 403): starting at any offset and given enough
fuel, it returns exactly the accounts from that offset on, having
requested the offsets `offset, offset + 1000, ...` up to and including
the first short page. -/
theorem get_subaccounts_go_ok {α : Type} (accounts : List α) (tok : PyVal) :
    ∀ (fuel offset : Nat), accounts.length - offset < 1000 * fuel →
      get_subaccounts_go ⟨none, accounts⟩ tok fuel offset =
        (Outcome.ok (accounts.drop offset),
         (List.range ((accounts.length - offset) / 1000 + 1)).map
           (fun i => offset + 1000 * i)) := by
  intro fuel
  induction fuel with
  | zero => intro offset h; omega
  | succ fuel ih =>
    intro offset h
    simp only [get_subaccounts_go, subaccountsResponse, make_request, raise_for_status]
    norm_num
    split
    · next hs =>
      simp only [Prod.mk.injEq]
      constructor
      · exact congrArg Outcome.ok (List.take_of_length_le (by simp [List.length_drop]; omega))
      · rw [Nat.div_eq_of_lt hs]
        norm_num [List.range_succ]
    · next hf0 =>
      have hf : 1000 ≤ accounts.length - offset := by omega
      rw [ih (offset + 1000) (by omega)]
      dsimp only
      simp only [Prod.mk.injEq]
      constructor
      · refine congrArg Outcome.ok ?_
        rw [← List.drop_drop]
        exact List.take_append_drop 1000 (List.drop offset accounts)
      · conv_rhs => rw [Nat.div_eq_sub_div (by norm_num) hf, Nat.sub_sub, mapOffsets_succ]

/-- C1: for every offset-style paginated fetch with page size 1000 —
sub-accounts via `get_subaccounts` (with reseller permission) and pools
via `get_pools` (no 404) — the returned sequence equals the concatenation
of all page contents, i.e. the full item list regardless of how page
boundaries fall, and the offsets requested are exactly
`0, 1000, ..., 1000 * (n / 1000)`: each full page advances the offset by
the page size, and the first page shorter than the page size is the last
request made.  The third conjunct states the stopping rule directly: at
any offset where fewer than 1000 items remain, the loop makes that one
request and no further one. -/
theorem offset_pagination_complete (accounts : List Account) (pools : List Pool)
    (tok : PyVal) :
    get_subaccounts ⟨none, accounts⟩ tok = (Outcome.ok accounts, pageOffsets accounts.length) ∧
    get_pools ⟨fun _ => false, pools⟩ = (pools, pageOffsets pools.length) ∧
    (∀ (fuel offset : Nat), pools.length - offset < 1000 →
      get_pools_go ⟨fun _ => false, pools⟩ (fuel + 1) offset = (pools.drop offset, [offset])) := by
  refine ⟨?_, ?_, ?_⟩
  · rw [get_subaccounts, get_subaccounts_go_ok accounts tok (accounts.length + 1) 0 (by omega)]
    simp only [List.drop_zero, Nat.sub_zero, pageOffsets]
    refine congrArg _ (List.map_congr_left (fun i _ => by omega))
  · rw [get_pools, get_pools_go_ok ⟨fun _ => false, pools⟩ (fun _ => rfl) (pools.length + 1) 0
      (by show pools.length - 0 < 1000 * (pools.length + 1); omega)]
    simp only [List.drop_zero, Nat.sub_zero, pageOffsets]
    refine congrArg _ (List.map_congr_left (fun i _ => by omega))
  · intro fuel offset hshort
    rw [get_pools_go_ok ⟨fun _ => false, pools⟩ (fun _ => rfl) (fuel + 1) offset
      (by show pools.length - offset < 1000 * (fuel + 1); omega)]
    rw [Nat.div_eq_of_lt hshort]
    norm_num [List.range_succ]

/-- Witness for `offset_pagination_complete` at concrete inputs. -/
theorem offset_pagination_complete_witness :
    get_subaccounts (⟨none, [⟨"Acme"⟩]⟩ : SubaccountsServer Account) PyVal.none
        = (Outcome.ok [⟨"Acme"⟩], [0]) ∧
    get_pools ⟨fun _ => false, [⟨"pool1", "A"⟩]⟩ = ([⟨"pool1", "A"⟩], [0]) ∧
    get_pools_go ⟨fun _ => false, [⟨"pool1", "A"⟩]⟩ 1 0 = ([⟨"pool1", "A"⟩], [0]) := by
  have h := offset_pagination_complete [⟨"Acme"⟩] [⟨"pool1", "A"⟩] PyVal.none
  exact ⟨by simpa using h.1, by simpa using h.2.1, by simpa using h.2.2 0 0 (by norm_num)⟩
/-- Cursor-following over a well-formed zones server returns the
concatenation of the chunks it serves. -/
theorem get_zones_cursor_serves (srv : String → ZonesPage) (c : String)
    (chunks : List (List Zone)) (h : Serves srv c chunks) :
    get_zones_cursor srv chunks.length c = some chunks.flatten := by
  induction h with
  | last c zs hsrv =>
    simp [get_zones_cursor, hsrv]
  | cons c zs c' rest hsrv hc htail ih =>
    simp [get_zones_cursor, hsrv, hc, ih]

/-- The chunk-level zone fetch is the concatenation of the chunks. -/
theorem get_zones_eq_flatten (chunks : List (List Zone)) :
    get_zones chunks = chunks.flatten := by
  induction chunks with
  | nil => rfl
  | cons page rest ih => simp [get_zones, ih]

/-- C2: for every cursor-style zone fetch over a well-formed server
(one whose responses, followed from the initial empty cursor, hand out a
chunk sequence with a truthy next cursor on every non-final page and none
on the final one), repeatedly requesting pages and following the
server-supplied next cursor until it is absent yields exactly
`unpaginated_zones`, the single unpaginated fetch of the same total set;
the chunk-level loop `get_zones` used by `main` agrees. -/
theorem cursor_pagination_unpaginated (srv : String → ZonesPage)
    (chunks : List (List Zone)) (h : Serves srv "" chunks) :
    get_zones_cursor srv chunks.length "" = some (unpaginated_zones chunks) ∧
    get_zones chunks = unpaginated_zones chunks :=
  ⟨get_zones_cursor_serves srv "" chunks h, get_zones_eq_flatten chunks⟩

/-- A concrete two-page zones server for the witness below. -/
def zonesSrvW : String → ZonesPage := fun c =>
  if c = "cursor1" then ⟨[⟨"b.com"⟩], none⟩ else ⟨[⟨"a.com"⟩], some "cursor1"⟩

/-- Witness for `cursor_pagination_unpaginated` at a concrete two-page
server. -/
theorem cursor_pagination_unpaginated_witness :
    get_zones_cursor zonesSrvW 2 "" = some [⟨"a.com"⟩, ⟨"b.com"⟩] ∧
    get_zones [[⟨"a.com"⟩], [⟨"b.com"⟩]] = [⟨"a.com"⟩, ⟨"b.com"⟩] := by
  have hs : Serves zonesSrvW "" [[⟨"a.com"⟩], [⟨"b.com"⟩]] := by
    refine Serves.cons "" [⟨"a.com"⟩] "cursor1" [[⟨"b.com"⟩]] (by decide) (by decide) ?_
    exact Serves.last "cursor1" [⟨"b.com"⟩] (by decide)
  have h := cursor_pagination_unpaginated zonesSrvW [[⟨"a.com"⟩], [⟨"b.com"⟩]] hs
  exact ⟨by simpa using h.1, by simpa using h.2⟩
/-- C6: when the sub-accounts listing answers 403 with a body mentioning
missing permissions, `get_subaccounts` prints the permission-error
message and exits the process with status 1 after that single request
(the request trace is exactly `[0]`: zero further network calls), and the
whole run terminates with that exit, regardless of what sub-account data
would have followed. -/
theorem forbidden_subaccounts_exit (t : String) (accts : List AccountData) (tok : PyVal)
    (h : pyInStr "do not have permissions" t = true) :
    get_subaccounts ⟨some t, accts⟩ tok = (Outcome.exited 1 permissionErrorMsg, [0]) ∧
    main_rows ⟨some t, accts⟩ tok = Outcome.exited 1 permissionErrorMsg := by
  have h1 : get_subaccounts (⟨some t, accts⟩ : SubaccountsServer AccountData) tok
      = (Outcome.exited 1 permissionErrorMsg, [0]) := by
    rw [get_subaccounts]
    simp only [get_subaccounts_go, subaccountsResponse, make_request, raise_for_status]
    norm_num [h]
  exact ⟨h1, by simp [main_rows, h1]⟩

/-- Witness for `forbidden_subaccounts_exit` at a concrete body text. -/
theorem forbidden_subaccounts_exit_witness :
    get_subaccounts (⟨some "You do not have permissions for this request", []⟩ :
        SubaccountsServer AccountData) PyVal.none
      = (Outcome.exited 1 permissionErrorMsg, [0]) ∧
    main_rows ⟨some "You do not have permissions for this request", []⟩ PyVal.none
      = Outcome.exited 1 permissionErrorMsg :=
  forbidden_subaccounts_exit "You do not have permissions for this request" [] PyVal.none
    (by decide)
/-- C4: impersonation of a suspended account is skipped, any other
impersonation failure aborts.  (1) When the impersonation call fails with
a body containing "is suspended", `get_subaccount_token` returns the
skipped marker (`None`) instead of raising; (2) when the body does not,
the `HTTPError` re-raises; (3) the aggregation loop contributes zero rows
for a skipped account and continues: with one suspended account anywhere
among N accounts, the rows are exactly those of the other N-1 accounts;
(4) a non-suspended impersonation failure propagates, aborting the
run. -/
theorem suspended_account_skipped (st : Nat) (text : String) (a : AccountData)
    (pre post : List AccountData) :
    (pyInStr "is suspended" text = true →
      get_subaccount_token (TokenResp.httpError st text) = Except.ok none) ∧
    (pyInStr "is suspended" text = false →
      get_subaccount_token (TokenResp.httpError st text)
        = Except.error (PyError.httpError st)) ∧
    (a.tokenResp = TokenResp.httpError st text → pyInStr "is suspended" text = true →
      processAccounts (pre ++ a :: post) = processAccounts (pre ++ post)) ∧
    (a.tokenResp = TokenResp.httpError st text → pyInStr "is suspended" text = false →
      processAccounts (a :: post) = Except.error (PyError.httpError st)) := by
  refine ⟨?_, ?_, ?_, ?_⟩
  · intro hsusp
    simp [get_subaccount_token, hsusp]
  · intro hns
    simp [get_subaccount_token, hns]
  · intro ha hsusp
    induction pre with
    | nil =>
      simp [processAccounts, ha, get_subaccount_token, hsusp, pyTruthyOpt]
    | cons hd tl ih =>
      simp only [List.cons_append, processAccounts, List.append_eq]
      rw [ih]
  · intro ha hns
    simp [processAccounts, ha, get_subaccount_token, hns]
/-- Concrete account records for the witnesses below: one account in good
standing, one whose impersonation reports a suspension, one whose
impersonation fails otherwise. -/
def acctGood : AccountData :=
  { accountName := "Good",
    tokenResp := TokenResp.ok "good-token",
    zoneChunks := [[⟨"good.com"⟩]],
    poolsOf := fun _ => ⟨fun _ => false, [⟨"gpool", "A"⟩]⟩ }

/-- Account whose impersonation call answers an error mentioning
suspension. -/
def acctSusp : AccountData :=
  { accountName := "Susp",
    tokenResp := TokenResp.httpError 400 "Account Susp is suspended",
    zoneChunks := [[]],
    poolsOf := fun _ => ⟨fun _ => false, []⟩ }

/-- Account whose impersonation call answers an unrelated server error. -/
def acctBad : AccountData :=
  { accountName := "Bad",
    tokenResp := TokenResp.httpError 500 "internal error",
    zoneChunks := [[]],
    poolsOf := fun _ => ⟨fun _ => false, []⟩ }

/-- Witness for `suspended_account_skipped`: a suspended account between
two good accounts contributes nothing, the others contribute their rows;
an unrelated impersonation failure aborts. -/
theorem suspended_account_skipped_witness :
    get_subaccount_token (TokenResp.httpError 400 "Account Susp is suspended")
      = Except.ok none ∧
    get_subaccount_token (TokenResp.httpError 500 "internal error")
      = Except.error (PyError.httpError 500) ∧
    processAccounts [acctGood, acctSusp, acctGood]
      = processAccounts [acctGood, acctGood] ∧
    processAccounts [acctBad, acctGood] = Except.error (PyError.httpError 500) := by
  refine ⟨?_, ?_, ?_, ?_⟩
  · exact (suspended_account_skipped 400 "Account Susp is suspended" acctSusp [] []).1
      (by decide)
  · exact (suspended_account_skipped 500 "internal error" acctBad [] []).2.1 (by decide)
  · exact (suspended_account_skipped 400 "Account Susp is suspended" acctSusp
      [acctGood] [acctGood]).2.2.1 rfl (by decide)
  · exact (suspended_account_skipped 500 "internal error" acctBad [] [acctGood]).2.2.2 rfl
      (by decide)
/-- Splitting a take at an intermediate point. -/
theorem take_add_split {α : Type} (m n : Nat) : ∀ (l : List α),
    l.take (m + n) = l.take m ++ (l.drop m).take n := by
  induction m with
  | zero => simp
  | succ m ih =>
    intro l
    cases l with
    | nil => simp
    | cons a t =>
      rw [show m + 1 + n = (m + n) + 1 by omega]
      simp only [List.take_succ_cons, List.drop_succ_cons, List.cons_append, ih t]

/-- Whatever the pools server answers, `get_pools_go` returns an initial
segment of the items from its starting offset on: the items gathered
before a 404 or a short page. -/
theorem get_pools_go_take (srv : PoolsServer) :
    ∀ (fuel offset : Nat), ∃ k,
      (get_pools_go srv fuel offset).1 = (srv.rrSets.drop offset).take k := by
  intro fuel
  induction fuel with
  | zero => intro offset; exact ⟨0, rfl⟩
  | succ fuel ih =>
    intro offset
    simp only [get_pools_go]
    by_cases hnf : srv.notFound offset = true
    · rw [if_pos hnf]
      exact ⟨0, rfl⟩
    · rw [if_neg hnf]
      split
      · exact ⟨1000, rfl⟩
      · obtain ⟨k, hk⟩ := ih (offset + 1000)
        refine ⟨1000 + k, ?_⟩
        dsimp only
        rw [hk, take_add_split, ← List.drop_drop]

/-- C5: a zone whose pools listing answers 404 yields a normal empty
result, not an error.  (1) When the first request answers 404,
`get_pools` returns no items after that single request; (2) in general
`get_pools` returns the items gathered so far, an initial segment of the
zones rrsets, and never raises; (3) the zone loop of `main` contributes
zero rows for such a zone and proceeds to the remaining zones. -/
theorem pools_notfound_empty (srv : PoolsServer) (name : String)
    (poolsOf : String → PoolsServer) (z : Zone) (rest : List Zone) :
    (srv.notFound 0 = true → get_pools srv = ([], [0])) ∧
    (∃ k, (get_pools srv).1 = srv.rrSets.take k) ∧
    ((poolsOf z.name).notFound 0 = true →
      processZones name poolsOf (z :: rest) = processZones name poolsOf rest) := by
  have h404 : ∀ (s : PoolsServer), s.notFound 0 = true → get_pools s = ([], [0]) := by
    intro s hs
    rw [get_pools]
    simp [get_pools_go, hs]
  refine ⟨h404 srv, ?_, ?_⟩
  · obtain ⟨k, hk⟩ := get_pools_go_take srv (srv.rrSets.length + 1) 0
    exact ⟨k, by simpa using hk⟩
  · intro hz
    simp [processZones, h404 (poolsOf z.name) hz]

/-- Pools server of a zone with no pool records: every request answers
404. -/
def poolsSrv404 : PoolsServer := ⟨fun _ => true, []⟩

/-- Witness pools lookup: the zone nopools.com has a 404-answering pools
endpoint, every other zone has one pool. -/
def poolsOfW : String → PoolsServer := fun zone_name =>
  if zone_name = "nopools.com" then poolsSrv404
  else ⟨fun _ => false, [⟨"pool1", "A"⟩]⟩

/-- Witness for `pools_notfound_empty` at a concrete 404 zone. -/
theorem pools_notfound_empty_witness :
    get_pools poolsSrv404 = ([], [0]) ∧
    processZones "Acme" poolsOfW [⟨"nopools.com"⟩, ⟨"acme.com"⟩]
      = processZones "Acme" poolsOfW [⟨"acme.com"⟩] := by
  have h := pools_notfound_empty poolsSrv404 "Acme" poolsOfW ⟨"nopools.com"⟩ [⟨"acme.com"⟩]
  exact ⟨h.1 rfl, h.2.2 (by decide)⟩
/-- The Acme account of the end-to-end scenario: one zone acme.com whose
rrsets listing serves pool1 of context type A and pool2 of context type
CNAME. -/
def acmeAccount : AccountData :=
  { accountName := "Acme",
    tokenResp := TokenResp.ok "acme-token",
    zoneChunks := [[⟨"acme.com"⟩]],
    poolsOf := fun _ => ⟨fun _ => false, [⟨"pool1", "A"⟩, ⟨"pool2", "CNAME"⟩]⟩ }

/-- C7: end-to-end, one account Acme with one zone acme.com containing
pool rrsets pool1 (type A) and pool2 (type CNAME) produces exactly the
two report rows {Acme, acme.com, pool1, A} then {Acme, acme.com, pool2,
CNAME}, in that order — account-major, then zone, then pool, as returned
by the API — in both the JSON output (where they follow the leading
placeholder object, see C8) and the CSV output (header then the two
rows). -/
theorem end_to_end_acme :
    main_rows ⟨none, [acmeAccount]⟩ PyVal.none
      = Outcome.ok [placeholderRow,
          ⟨"Acme", "acme.com", "pool1", "A"⟩, ⟨"Acme", "acme.com", "pool2", "CNAME"⟩] ∧
    json_dump [placeholderRow,
        ⟨"Acme", "acme.com", "pool1", "A"⟩, ⟨"Acme", "acme.com", "pool2", "CNAME"⟩]
      = JsonVal.arr [rowToJson placeholderRow,
          JsonVal.obj [("Sub Account Name", JsonVal.str "Acme"),
            ("Zone Name", JsonVal.str "acme.com"),
            ("Pool Name", JsonVal.str "pool1"), ("Pool Type", JsonVal.str "A")],
          JsonVal.obj [("Sub Account Name", JsonVal.str "Acme"),
            ("Zone Name", JsonVal.str "acme.com"),
            ("Pool Name", JsonVal.str "pool2"), ("Pool Type", JsonVal.str "CNAME")]] ∧
    csv_write [placeholderRow,
        ⟨"Acme", "acme.com", "pool1", "A"⟩, ⟨"Acme", "acme.com", "pool2", "CNAME"⟩]
      = [["Sub Account Name", "Zone Name", "Pool Name", "Pool Type"],
         ["Acme", "acme.com", "pool1", "A"], ["Acme", "acme.com", "pool2", "CNAME"]] :=
  ⟨rfl, rfl, rfl⟩
/-- Every successful run's row list starts with the placeholder row. -/
theorem main_rows_shape (srv : SubaccountsServer AccountData) (tok : PyVal)
    (data : List ReportRow) (h : main_rows srv tok = Outcome.ok data) :
    ∃ rows, data = placeholderRow :: rows := by
  rw [main_rows] at h
  split at h
  · cases h
  · cases h
  · split at h
    · cases h
    · cases h
      exact ⟨_, rfl⟩

/-- C8: for every row list a successful run produces, the JSON output
serializes the full list, leading all-empty placeholder row included, as
an array of objects (one object per row, in order; indentation is a
formatting detail not modelled), while the CSV output writes the header
line of the four field names and then one line per row of `data[1:]`,
the slicing dropping exactly the placeholder. -/
theorem json_includes_placeholder_csv_skips (srv : SubaccountsServer AccountData)
    (tok : PyVal) (data : List ReportRow) (h : main_rows srv tok = Outcome.ok data) :
    data.head? = some placeholderRow ∧
    json_dump data
      = JsonVal.arr (rowToJson placeholderRow :: (data.drop 1).map rowToJson) ∧
    csv_write data = fieldnames :: (data.drop 1).map rowFields ∧
    rowToJson placeholderRow
      = JsonVal.obj [("Sub Account Name", JsonVal.str ""), ("Zone Name", JsonVal.str ""),
          ("Pool Name", JsonVal.str ""), ("Pool Type", JsonVal.str "")] := by
  obtain ⟨rows, rfl⟩ := main_rows_shape srv tok data h
  exact ⟨rfl, rfl, rfl, rfl⟩

/-- Witness for `json_includes_placeholder_csv_skips` on the concrete
Acme run. -/
theorem json_includes_placeholder_csv_skips_witness :
    ([placeholderRow, ⟨"Acme", "acme.com", "pool1", "A"⟩,
        ⟨"Acme", "acme.com", "pool2", "CNAME"⟩] : List ReportRow).head?
      = some placeholderRow ∧
    json_dump [placeholderRow, ⟨"Acme", "acme.com", "pool1", "A"⟩,
        ⟨"Acme", "acme.com", "pool2", "CNAME"⟩]
      = JsonVal.arr (rowToJson placeholderRow ::
          [(⟨"Acme", "acme.com", "pool1", "A"⟩ : ReportRow),
           ⟨"Acme", "acme.com", "pool2", "CNAME"⟩].map rowToJson) ∧
    csv_write [placeholderRow, ⟨"Acme", "acme.com", "pool1", "A"⟩,
        ⟨"Acme", "acme.com", "pool2", "CNAME"⟩]
      = fieldnames :: [(⟨"Acme", "acme.com", "pool1", "A"⟩ : ReportRow),
          ⟨"Acme", "acme.com", "pool2", "CNAME"⟩].map rowFields ∧
    rowToJson placeholderRow
      = JsonVal.obj [("Sub Account Name", JsonVal.str ""), ("Zone Name", JsonVal.str ""),
          ("Pool Name", JsonVal.str ""), ("Pool Type", JsonVal.str "")] := by
  have h := json_includes_placeholder_csv_skips ⟨none, [acmeAccount]⟩ PyVal.none
    [placeholderRow, ⟨"Acme", "acme.com", "pool1", "A"⟩,
     ⟨"Acme", "acme.com", "pool2", "CNAME"⟩] rfl
  exact ⟨h.1, by simpa using h.2.1, by simpa using h.2.2.1, h.2.2.2⟩
/-- C10: the CSV-to-standard-output path always fails with an
unresolved-name error on `sys` — the script references `sys.stdout` but
never imports `sys` (see `importedNames`) — before any CSV bytes, header
or rows, are written: the lines written to standard output are []. -/
theorem csv_stdout_unresolved_sys (data : List ReportRow) :
    render_csv_stdout data = (Except.error (PyError.nameError "sys"), []) := by
  rfl
/-- Items returned by `get_pools` come from the zones rrsets. -/
theorem mem_get_pools (srv : PoolsServer) (p : Pool) (hp : p ∈ (get_pools srv).1) :
    p ∈ srv.rrSets := by
  obtain ⟨k, hk⟩ := get_pools_go_take srv (srv.rrSets.length + 1) 0
  rw [get_pools, hk] at hp
  exact List.drop_subset 0 _ (List.take_subset k _ hp)

/-- Every row the zone loop emits comes from a zone in the list and a
pool of that zones rrsets, with the four fields as constructed by
`main`. -/
theorem processZones_mem (name : String) (poolsOf : String → PoolsServer) :
    ∀ (zones : List Zone) (r : ReportRow), r ∈ processZones name poolsOf zones →
      ∃ z ∈ zones, ∃ p ∈ (poolsOf z.name).rrSets,
        r = ⟨name, z.name, p.ownerName, p.profileContext⟩ := by
  intro zones
  induction zones with
  | nil => intro r hr; cases hr
  | cons z rest ih =>
    intro r hr
    simp only [processZones, List.mem_append, List.mem_map] at hr
    rcases hr with ⟨p, hp, rfl⟩ | hr
    · exact ⟨z, List.mem_cons_self z rest, p, mem_get_pools _ p hp, rfl⟩
    · obtain ⟨z', hz', p, hp, hre⟩ := ih r hr
      exact ⟨z', List.mem_cons_of_mem _ hz', p, hp, hre⟩

/-- Every row a successful aggregation emits comes from one of the
accounts, via its zone loop. -/
theorem processAccounts_mem :
    ∀ (accts : List AccountData) (rows : List ReportRow),
      processAccounts accts = Except.ok rows → ∀ r ∈ rows,
      ∃ a ∈ accts, r ∈ processZones a.accountName a.poolsOf (get_zones a.zoneChunks) := by
  intro accts
  induction accts with
  | nil =>
    intro rows h r hr
    cases h
    cases hr
  | cons acct rest ih =>
    intro rows h r hr
    simp only [processAccounts] at h
    split at h
    · cases h
    · split at h
      · obtain ⟨a, ha, hmem⟩ := ih rows h r hr
        exact ⟨a, List.mem_cons_of_mem _ ha, hmem⟩
      · split at h
        · cases h
        · next restRows heq =>
          cases h
          rcases List.mem_append.mp hr with hl | hrr
          · exact ⟨acct, List.mem_cons_self acct rest, hl⟩
          · obtain ⟨a, ha, hmem⟩ := ih restRows heq r hrr
            exact ⟨a, List.mem_cons_of_mem _ ha, hmem⟩

/-- C9: every report row appended for an (account, zone, pool) triple has
all four fields non-empty, provided the API returns non-empty names; and
empty enumerations are not errors: no accounts gives zero rows, a zone
list of a given account may be empty, and a zone with an empty (or
404-answering, see C5) pools listing contributes zero rows. -/
theorem report_rows_nonempty (accts : List AccountData) (rows : List ReportRow)
    (hrows : processAccounts accts = Except.ok rows)
    (hA : ∀ a ∈ accts, a.accountName ≠ "")
    (hZ : ∀ a ∈ accts, ∀ z ∈ get_zones a.zoneChunks, z.name ≠ "")
    (hP : ∀ a ∈ accts, ∀ z ∈ get_zones a.zoneChunks, ∀ p ∈ (a.poolsOf z.name).rrSets,
      p.ownerName ≠ "" ∧ p.profileContext ≠ "") :
    (∀ r ∈ rows, r.subAccountName ≠ "" ∧ r.zoneName ≠ "" ∧ r.poolName ≠ ""
        ∧ r.poolType ≠ "") ∧
    processAccounts [] = Except.ok [] ∧
    (∀ (name : String) (poolsOf : String → PoolsServer),
      processZones name poolsOf [] = []) ∧
    (∀ (name : String) (poolsOf : String → PoolsServer) (z : Zone),
      (poolsOf z.name).rrSets = [] → (poolsOf z.name).notFound 0 = false →
      processZones name poolsOf [z] = []) := by
  refine ⟨?_, rfl, fun _ _ => rfl, ?_⟩
  · intro r hr
    obtain ⟨a, ha, hmem⟩ := processAccounts_mem accts rows hrows r hr
    obtain ⟨z, hz, p, hp, rfl⟩ := processZones_mem a.accountName a.poolsOf _ r hmem
    exact ⟨hA a ha, hZ a ha z hz, (hP a ha z hz p hp).1, (hP a ha z hz p hp).2⟩
  · intro name poolsOf z hempty hnf
    simp [processZones, get_pools, hempty, get_pools_go, hnf]

/-- Witness for `report_rows_nonempty` on a concrete one-account run. -/
theorem report_rows_nonempty_witness :
    (∀ r ∈ [(⟨"Good", "good.com", "gpool", "A"⟩ : ReportRow)],
      r.subAccountName ≠ "" ∧ r.zoneName ≠ "" ∧ r.poolName ≠ "" ∧ r.poolType ≠ "") ∧
    processAccounts [] = Except.ok [] ∧
    (∀ (name : String) (poolsOf : String → PoolsServer),
      processZones name poolsOf [] = []) ∧
    (∀ (name : String) (poolsOf : String → PoolsServer) (z : Zone),
      (poolsOf z.name).rrSets = [] → (poolsOf z.name).notFound 0 = false →
      processZones name poolsOf [z] = []) :=
  report_rows_nonempty [acctGood] [⟨"Good", "good.com", "gpool", "A"⟩] rfl
    (by decide) (by decide) (by decide)
